import Mathlib

/-! Battery-gated sampling policy of the `fiona` data logger.

A shallow embedding of `logger_test/src/main.cpp` (and of the identifier table
of `jax_logger/src/UUIDs.h`).

Conventions of the embedding.

* `getBatteryVoltage`, `loop` and `setup` carry a sensor value as the rational
  number it denotes and read the decimal literals `3.4` and `3.55` as their
  decimal values; `-9999` is the framework's "bad value".
* `loopOn`, `setupOn` and `calculateAtlasSpCond` take the width of the C++ type
  `double` on the build target as a parameter and render literals and
  arithmetic as IEEE floating point: a `double` literal is the nearest
  number of the format, every operation rounds to nearest, ties to even.
  `loopOn_calls_eq_loop` and `setupOn_syncRTC_iff_setup` relate the two
  renderings.
* The sensor framework (ModularSensors) is external.  `mcuBoard.update()` is
  rendered by an explicit stream of measurement outcomes carried in the
  state; the `dataLogger` / `varArray` / `modem` entry points are rendered as
  entries of a call log.
-/

namespace Fiona

/-! ## The processor "sensor" `mcuBoard` -/

/-- The framework's sentinel for "no valid value": `-9999`. -/
def badValue : ℚ := -9999

/-- State of `ProcessorStats mcuBoard` as far as `main.cpp` touches it.
`sensorValues0` is `mcuBoard.sensorValues[0]` (the battery voltage slot),
`updates` counts the calls of `mcuBoard.update()` made so far, and
`measure n` is the value that the call number `n` of `mcuBoard.update()`
leaves in `sensorValues[0]` (possibly `-9999` again when the measurement
fails). -/
structure ProcessorStats where
  sensorValues0 : ℚ
  updates : ℕ
  measure : ℕ → ℚ

/-- Effect of `mcuBoard.update()` on the battery slot: the next measurement
outcome is stored and the call is counted. -/
def ProcessorStats.update (s : ProcessorStats) : ProcessorStats :=
  { s with sensorValues0 := s.measure s.updates, updates := s.updates + 1 }

/-! ## The logger and its call log -/

/-- Entry points of the external framework that `setup()` and `loop()`
invoke. -/
inductive Call
  | setLoggerTimeZone
  | setRTCTimeZone
  | attachModem
  | setModemLED
  | setLoggerPins
  | begin
  | setupSensors
  | syncRTC
  | turnOnSDcard
  | createLogFile
  | turnOffSDcard
  | systemSleep
  | logData
  | logDataAndPublish
  deriving DecidableEq, Repr

/-- Everything `setup()` and `loop()` read or write: the processor sensor,
the answer `dataLogger.isRTCSane()` gives, and the log of framework calls
(oldest first). -/
structure World where
  mcuBoard : ProcessorStats
  rtcSane : Bool
  calls : List Call

/-- A call of a framework entry point.  The entry point is a black box: the
call is recorded, and no effect on `mcuBoard.sensorValues[0]` or on the
answer of `isRTCSane()` is rendered.  In `loop()` such a call is the last
step; in `setup()` no entry point called before the last gate samples the
sensors. -/
def World.invoke (w : World) (c : Call) : World :=
  { w with calls := w.calls ++ [c] }

/-- Answer of `dataLogger.isRTCSane()`. -/
def World.isRTCSane (w : World) : Bool := w.rtcSane

/-- The framework calls made while running `f` from `w`. -/
def callsDuring (f : World → World) (w : World) : List Call :=
  (f w).calls.drop w.calls.length

/-! ## `getBatteryVoltage` (main.cpp, lines 260-264) -/

/-- Embedding of
`if (mcuBoard.sensorValues[0] == -9999) mcuBoard.update();
 return mcuBoard.sensorValues[0];` -/
def getBatteryVoltage (w : World) : ℚ × World :=
  if w.mcuBoard.sensorValues0 = badValue then
    let w' : World := { w with mcuBoard := w.mcuBoard.update }
    (w'.mcuBoard.sensorValues0, w')
  else
    (w.mcuBoard.sensorValues0, w)

/-! ## `loop` (main.cpp, lines 348-360) -/

/-- Embedding of `loop()`, the literals `3.4` and `3.55` read as decimals;
`loopOn` reads them as the build target rounds them. -/
def loop (w : World) : World :=
  let r1 := getBatteryVoltage w
  if r1.1 < 3.4 then
    r1.2.invoke Call.systemSleep
  else
    -- At moderate voltage, log data but don't send it over the modem
    let r2 := getBatteryVoltage r1.2
    if r2.1 < 3.55 then
      r2.2.invoke Call.logData
    else
      -- If the battery is good, send the data to the world
      r2.2.invoke Call.logDataAndPublish

/-! ## `setup` (main.cpp, lines 269-343) -/

/-- Embedding of `setup()`, the literals `3.4` and `3.55` read as decimals;
`setupOn` reads them as the build target rounds them.  Serial output, LED and
pin handling and `modemSerial.begin` are console or pin I/O and are left out;
every call into the logging framework is kept, in source order. -/
def setup (w : World) : World :=
  let w := w.invoke Call.setLoggerTimeZone
  let w := w.invoke Call.setRTCTimeZone
  let w := w.invoke Call.attachModem
  let w := w.invoke Call.setModemLED
  let w := w.invoke Call.setLoggerPins
  let w := w.invoke Call.begin
  -- Set up the sensors, except at lowest battery level
  let r1 := getBatteryVoltage w
  let w := if r1.1 > 3.4 then r1.2.invoke Call.setupSensors else r1.2
  -- Sync the clock if it isn't valid or we have battery to spare
  let r2 := getBatteryVoltage w
  let w := if r2.1 > 3.55 || !r2.2.isRTCSane then r2.2.invoke Call.syncRTC else r2.2
  -- Create the log file
  let r3 := getBatteryVoltage w
  let w :=
    if r3.1 > 3.4 then
      ((r3.2.invoke Call.turnOnSDcard).invoke Call.createLogFile).invoke Call.turnOffSDcard
    else r3.2
  -- Call the processor sleep
  w.invoke Call.systemSleep

/-- Value returned by the `getBatteryVoltage()` call that guards
`varArray.setupSensors()` (main.cpp line 314): the first query of `setup()`. -/
def voltageAtSensorGate (w : World) : ℚ :=
  (getBatteryVoltage w).1

/-- Value returned by the `getBatteryVoltage()` call that guards
`dataLogger.syncRTC()` (main.cpp line 320): the second query of `setup()`. -/
def voltageAtSyncGate (w : World) : ℚ :=
  (getBatteryVoltage (getBatteryVoltage w).2).1

/-- Value returned by the `getBatteryVoltage()` call that guards
`dataLogger.createLogFile` (main.cpp line 331): the third query of
`setup()`. -/
def voltageAtLogFileGate (w : World) : ℚ :=
  (getBatteryVoltage (getBatteryVoltage (getBatteryVoltage w).2).2).1

/-! ## Floating-point values and rounding

`float` is IEEE binary32.  `double` is binary64 on most targets and binary32
with avr-gcc, the compiler of the Mayfly board named in the header of
`main.cpp`; both widths are rendered.  A finite value is the rational it
denotes; the sign of zero is not tracked. -/

/-- A value of a C++ floating-point type: not-a-number, an infinity with its
sign (`neg = true` for minus infinity), or a finite number. -/
inductive FVal
  | nan
  | inf (neg : Bool)
  | fin (q : ℚ)
  deriving DecidableEq, Repr

/-- A binary floating-point format: the precision in bits of the significand
and the largest exponent; the smallest normal exponent is `1 - emax`. -/
structure FloatFormat where
  prec : ℕ
  emax : ℤ

/-- IEEE binary32, the C++ `float`. -/
def binary32 : FloatFormat := ⟨24, 127⟩

/-- IEEE binary64. -/
def binary64 : FloatFormat := ⟨53, 1023⟩

/-- The finite numbers of a format: `m * 2 ^ e` with a significand below
`2 ^ prec` and an exponent in the range of the format (subnormals
included). -/
def FloatFormat.Rep (f : FloatFormat) (x : ℚ) : Prop :=
  ∃ m e : ℤ, |m| < 2 ^ f.prec ∧ (1 - f.emax) - ((f.prec : ℤ) - 1) ≤ e ∧
    e ≤ f.emax - ((f.prec : ℤ) - 1) ∧ x = m * 2 ^ e

/-- Nearest integer, ties to the even one. -/
def roundHalfEven (x : ℚ) : ℤ :=
  if x - ⌊x⌋ < 1 / 2 then ⌊x⌋
  else if 1 / 2 < x - ⌊x⌋ then ⌊x⌋ + 1
  else if ⌊x⌋ % 2 = 0 then ⌊x⌋ else ⌊x⌋ + 1

/-- Exponent of the spacing of the format around `x`. -/
def FloatFormat.quantumExp (f : FloatFormat) (x : ℚ) : ℤ :=
  max (Int.log 2 |x|) (1 - f.emax) - ((f.prec : ℤ) - 1)

/-- Round to nearest, ties to even, ignoring overflow. -/
def FloatFormat.roundQ (f : FloatFormat) (x : ℚ) : ℚ :=
  roundHalfEven (x / 2 ^ f.quantumExp x) * 2 ^ f.quantumExp x

/-- Round to nearest, ties to even; a result of magnitude `2 ^ (emax + 1)` or
more overflows to the infinity of the sign of `x`. -/
def FloatFormat.round (f : FloatFormat) (x : ℚ) : FVal :=
  if (2 : ℚ) ^ (f.emax + 1) ≤ |f.roundQ x| then FVal.inf (decide (x < 0))
  else FVal.fin (f.roundQ x)

/-- Negation. -/
def FVal.neg : FVal → FVal
  | FVal.nan => FVal.nan
  | FVal.inf s => FVal.inf (!s)
  | FVal.fin q => FVal.fin (-q)

/-- Addition in format `f`. -/
def FloatFormat.add (f : FloatFormat) : FVal → FVal → FVal
  | FVal.nan, _ => FVal.nan
  | _, FVal.nan => FVal.nan
  | FVal.inf s, FVal.inf t => if s = t then FVal.inf s else FVal.nan
  | FVal.inf s, FVal.fin _ => FVal.inf s
  | FVal.fin _, FVal.inf t => FVal.inf t
  | FVal.fin a, FVal.fin b => f.round (a + b)

/-- Subtraction in format `f`. -/
def FloatFormat.sub (f : FloatFormat) (a b : FVal) : FVal :=
  f.add a b.neg

/-- Multiplication in format `f`. -/
def FloatFormat.mul (f : FloatFormat) : FVal → FVal → FVal
  | FVal.nan, _ => FVal.nan
  | _, FVal.nan => FVal.nan
  | FVal.inf s, FVal.inf t => FVal.inf (xor s t)
  | FVal.inf s, FVal.fin b => if b = 0 then FVal.nan else FVal.inf (xor s (decide (b < 0)))
  | FVal.fin a, FVal.inf t => if a = 0 then FVal.nan else FVal.inf (xor (decide (a < 0)) t)
  | FVal.fin a, FVal.fin b => f.round (a * b)

/-- Division in format `f`.  A zero divisor is taken as `+0`, which is the only
zero the divisor `1 + ...` of `calculateAtlasSpCond` can be. -/
def FloatFormat.div (f : FloatFormat) : FVal → FVal → FVal
  | FVal.nan, _ => FVal.nan
  | _, FVal.nan => FVal.nan
  | FVal.inf _, FVal.inf _ => FVal.nan
  | FVal.inf s, FVal.fin b => FVal.inf (xor s (decide (b < 0)))
  | FVal.fin _, FVal.inf _ => FVal.fin 0
  | FVal.fin a, FVal.fin b =>
    if b = 0 then (if a = 0 then FVal.nan else FVal.inf (decide (a < 0)))
    else f.round (a / b)

/-- Conversion to `float`. -/
def FVal.toFloat : FVal → FVal
  | FVal.fin q => binary32.round q
  | v => v

/-- The values a `float` can hold. -/
def FVal.IsFloat : FVal → Prop
  | FVal.fin q => binary32.Rep q
  | _ => True

/-- Width of the C++ type `double` on the build target. -/
inductive DoubleWidth
  | bits32
  | bits64
  deriving DecidableEq, Repr

/-- Format of `double` on the build target. -/
def DoubleWidth.format : DoubleWidth → FloatFormat
  | DoubleWidth.bits32 => binary32
  | DoubleWidth.bits64 => binary64

/-- Value of a decimal literal of type `double`: the literal rounded to the
format of `double`. -/
def DoubleWidth.literal (d : DoubleWidth) (x : ℚ) : ℚ :=
  d.format.roundQ x

/-- The `float` nearest to 3.40, `3.4f`. -/
def float_3_4 : ℚ := 7130317 / 2097152

/-- The `float` nearest to 3.55, `3.55f`. -/
def float_3_55 : ℚ := 14889779 / 4194304

/-! ## `loop` and `setup` with the literals as the compiler rounds them -/

/-- Embedding of `loop()` (main.cpp, lines 348-360) on a target whose
`double` has width `d`.  The `float` reading is promoted to `double` without
change and compared with the `double` literal. -/
def loopOn (d : DoubleWidth) (w : World) : World :=
  let r1 := getBatteryVoltage w
  if r1.1 < d.literal 3.4 then
    r1.2.invoke Call.systemSleep
  else
    -- At moderate voltage, log data but don't send it over the modem
    let r2 := getBatteryVoltage r1.2
    if r2.1 < d.literal 3.55 then
      r2.2.invoke Call.logData
    else
      -- If the battery is good, send the data to the world
      r2.2.invoke Call.logDataAndPublish

/-- Embedding of `setup()` (main.cpp, lines 269-343) on a target whose
`double` has width `d`; otherwise as `setup`. -/
def setupOn (d : DoubleWidth) (w : World) : World :=
  let w := w.invoke Call.setLoggerTimeZone
  let w := w.invoke Call.setRTCTimeZone
  let w := w.invoke Call.attachModem
  let w := w.invoke Call.setModemLED
  let w := w.invoke Call.setLoggerPins
  let w := w.invoke Call.begin
  -- Set up the sensors, except at lowest battery level
  let r1 := getBatteryVoltage w
  let w := if r1.1 > d.literal 3.4 then r1.2.invoke Call.setupSensors else r1.2
  -- Sync the clock if it isn't valid or we have battery to spare
  let r2 := getBatteryVoltage w
  let w :=
    if r2.1 > d.literal 3.55 || !r2.2.isRTCSane then r2.2.invoke Call.syncRTC else r2.2
  -- Create the log file
  let r3 := getBatteryVoltage w
  let w :=
    if r3.1 > d.literal 3.4 then
      ((r3.2.invoke Call.turnOnSDcard).invoke Call.createLogFile).invoke Call.turnOffSDcard
    else r3.2
  -- Call the processor sleep
  w.invoke Call.systemSleep

/-! ## `calculateAtlasSpCond` (main.cpp, lines 131-148) -/

/-- Embedding of `calculateAtlasSpCond` on a target whose `double` has width
`d`.  The two inputs are the `float` values `atlasTemp->getValue()` and
`atlasCond->getValue()` deliver.  `temperatureCoef` is the `double` literal
`0.019` converted to `float`; the expression is evaluated in `double`, every
operation rounded, and the quotient is converted to the `float` `spCond`.
The integers `-9999` and `1` and the literal `25.0` are exact. -/
def calculateAtlasSpCond (d : DoubleWidth) (waterTemp rawCond : FVal) : FVal :=
  let spCond : FVal := FVal.fin (-9999)  -- Always safest to start with a bad value
  if waterTemp ≠ FVal.fin (-9999) ∧ rawCond ≠ FVal.fin (-9999) then
    -- make sure both inputs are good
    let temperatureCoef : FVal := (FVal.fin (d.literal 0.019)).toFloat
    (d.format.div rawCond
      (d.format.add (FVal.fin 1)
        (d.format.mul temperatureCoef (d.format.sub waterTemp (FVal.fin 25.0))))).toFloat
  else
    spCond

/-! ## The variable list and its identifiers (main.cpp, lines 184-226) -/

/-- The `Variable*` objects `main.cpp` creates (lines 90-179). -/
inductive Variable
  | processorSampleNum
  | processorFreeRAM
  | processorBattery
  | modemRSSI
  | modemSignalPct
  | modemBatteryState
  | modemBatteryPct
  | modemBatteryVoltage
  | modemTemperature
  | rtcTemp
  | atlasTemp
  | atlasCond
  | atlasTDS
  | atlasSal
  | atlasGrav
  | atlasSpCond
  | atlaspHpH
  | atlasDOconc
  | atlasDOpct
  deriving DecidableEq, Repr

/-- Embedding of `Variable *variableList[]` (main.cpp lines 184-203); the
entries commented out in the source are absent. -/
def variableList : List Variable :=
  [Variable.processorSampleNum,
   Variable.processorFreeRAM,
   Variable.processorBattery,
   Variable.rtcTemp,
   Variable.modemRSSI,
   Variable.atlasTemp,
   Variable.atlasCond,
   Variable.atlasTDS,
   Variable.atlasSal,
   Variable.atlasGrav,
   Variable.atlaspHpH,
   Variable.atlasDOconc,
   Variable.atlasDOpct]

/-- Embedding of `const char *UUIDs[]` (main.cpp lines 205-220). -/
def UUIDs : List String :=
  ["c2d77237-5f4a-4fc5-85e0-b65f0c36c689",
   "9d4cb12c-083d-45da-b8f2-31f2c4b0f7eb",
   "2f54c561-06c9-4794-be72-ecb3c0f33a89",
   "b43ff7e0-8831-4ecc-a4b8-c5cee1f6b266",
   "2a20259b-9935-4e86-928b-259778377d75",
   "b0d1cb75-3442-460a-8b9c-471fd657e53f",
   "b6372e58-e280-4d6a-a15d-e4cd6215f2b7",
   "714bdd0d-02bf-4e62-a389-4be63cf7b7ec",
   "930c90bb-5ffe-49ee-b50d-5246f5ebd52b",
   "7e44217d-527d-4020-a774-3115c2c27a0e",
   "9bd85870-801d-4b8a-8275-5c47cbe5d794",
   "be51f2d0-7406-43d0-8fd3-d6ca9cab55ec",
   "6bdb35da-26f5-4d22-a623-ff2e6fef32a8"]

/-- Embedding of `sizeof(variableList) / sizeof(variableList[0])`. -/
def variableCount : ℕ := variableList.length

/-- Embedding of `const char *UUIDs[]` of `jax_logger/src/UUIDs.h`
(lines 9-24, the `STATION == 1` table). -/
def JaxLogger.UUIDs : List String :=
  ["c2d77237-5f4a-4fc5-85e0-b65f0c36c689",
   "9d4cb12c-083d-45da-b8f2-31f2c4b0f7eb",
   "2f54c561-06c9-4794-be72-ecb3c0f33a89",
   "b43ff7e0-8831-4ecc-a4b8-c5cee1f6b266",
   "2a20259b-9935-4e86-928b-259778377d75",
   "b0d1cb75-3442-460a-8b9c-471fd657e53f",
   "b6372e58-e280-4d6a-a15d-e4cd6215f2b7",
   "714bdd0d-02bf-4e62-a389-4be63cf7b7ec",
   "930c90bb-5ffe-49ee-b50d-5246f5ebd52b",
   "7e44217d-527d-4020-a774-3115c2c27a0e",
   "9bd85870-801d-4b8a-8275-5c47cbe5d794",
   "be51f2d0-7406-43d0-8fd3-d6ca9cab55ec",
   "6bdb35da-26f5-4d22-a623-ff2e6fef32a8"]

/-! ## The operating bands of the policy, as the specification words them -/

/-- Operating band of one cycle. -/
inductive Band
  | Critical
  | Moderate
  | Normal
  deriving DecidableEq, Repr

/-- Low threshold of the policy, 3.40 V. -/
def lowThreshold : ℚ := 3.4

/-- High threshold of the policy, 3.55 V. -/
def highThreshold : ℚ := 3.55

/-- Classification by the specification's contract: below the low threshold
the band is Critical, from the low threshold up to (excluding) the high
threshold it is Moderate, from the high threshold on it is Normal. -/
def classify (v : ℚ) : Band :=
  if v < lowThreshold then Band.Critical
  else if v < highThreshold then Band.Moderate
  else Band.Normal

/-- Action the specification attaches to a band: sleep, sample-and-log, or
sample-log-and-publish. -/
def Band.action : Band → Call
  | Band.Critical => Call.systemSleep
  | Band.Moderate => Call.logData
  | Band.Normal => Call.logDataAndPublish

/-! ## Sample worlds -/

/-- A world whose battery slot already holds `v`. -/
def cachedAt (v : ℚ) : World :=
  { mcuBoard := { sensorValues0 := v, updates := 0, measure := fun _ => v },
    rtcSane := true, calls := [] }

/-- A freshly booted world: the battery slot still holds the bad value and
the measurements will deliver `m 0`, `m 1`, ... -/
def bootWith (m : ℕ → ℚ) (sane : Bool) : World :=
  { mcuBoard := { sensorValues0 := badValue, updates := 0, measure := m },
    rtcSane := sane, calls := [] }

/-! ## Basic facts about `getBatteryVoltage` -/

theorem callsDuring_of_append {f : World → World} {w : World} {l : List Call}
    (h : (f w).calls = w.calls ++ l) : callsDuring f w = l := by
  simp [callsDuring, h]

@[simp]
theorem invoke_calls (w : World) (c : Call) :
    (w.invoke c).calls = w.calls ++ [c] := rfl

@[simp]
theorem invoke_mcuBoard (w : World) (c : Call) :
    (w.invoke c).mcuBoard = w.mcuBoard := rfl

@[simp]
theorem invoke_rtcSane (w : World) (c : Call) :
    (w.invoke c).rtcSane = w.rtcSane := rfl

@[simp]
theorem getBatteryVoltage_calls (w : World) :
    (getBatteryVoltage w).2.calls = w.calls := by
  unfold getBatteryVoltage; split <;> rfl

@[simp]
theorem getBatteryVoltage_rtcSane (w : World) :
    (getBatteryVoltage w).2.rtcSane = w.rtcSane := by
  unfold getBatteryVoltage; split <;> rfl

/-- The value returned is the one the battery slot holds afterwards. -/
theorem getBatteryVoltage_fst (w : World) :
    (getBatteryVoltage w).1 = (getBatteryVoltage w).2.mcuBoard.sensorValues0 := by
  unfold getBatteryVoltage; split <;> rfl

/-- With a valid cached value nothing is measured. -/
theorem getBatteryVoltage_of_valid (w : World)
    (h : w.mcuBoard.sensorValues0 ≠ badValue) :
    getBatteryVoltage w = (w.mcuBoard.sensorValues0, w) := by
  unfold getBatteryVoltage; rw [if_neg h]

/-- The battery slot only depends on the processor sensor. -/
theorem getBatteryVoltage_invoke (w : World) (c : Call) :
    getBatteryVoltage (w.invoke c) =
      ((getBatteryVoltage w).1, (getBatteryVoltage w).2.invoke c) := by
  unfold getBatteryVoltage World.invoke
  by_cases h : w.mcuBoard.sensorValues0 = badValue <;> simp [h]

/-- Once a call returned a valid value, a further call returns the same value
and changes nothing. -/
theorem getBatteryVoltage_again (w : World)
    (h : (getBatteryVoltage w).1 ≠ badValue) :
    getBatteryVoltage (getBatteryVoltage w).2 = getBatteryVoltage w := by
  rw [getBatteryVoltage_fst] at h
  rw [getBatteryVoltage_of_valid _ h, ← getBatteryVoltage_fst]

theorem badValue_lt_low : badValue < (3.4 : ℚ) := by
  norm_num [badValue]

/-- Shape of one run of `loop()`: the state after the first voltage query,
followed by the action of the band of the value that query returned. -/
theorem loop_eq (w : World) :
    loop w = (getBatteryVoltage w).2.invoke (classify (getBatteryVoltage w).1).action := by
  unfold loop classify lowThreshold highThreshold
  by_cases h1 : (getBatteryVoltage w).1 < 3.4
  · simp [h1, Band.action]
  · have hne : (getBatteryVoltage w).1 ≠ badValue := by
      intro h; exact h1 (h ▸ badValue_lt_low)
    simp only [h1, if_false, getBatteryVoltage_again w hne]
    by_cases h2 : (getBatteryVoltage w).1 < 3.55 <;> simp [h2, Band.action]

theorem loop_calls (w : World) :
    callsDuring loop w = [(classify (getBatteryVoltage w).1).action] := by
  apply callsDuring_of_append
  rw [loop_eq]; simp

theorem getBatteryVoltage_cachedAt (v : ℚ) (h : v ≠ badValue) :
    (getBatteryVoltage (cachedAt v)).1 = v := by
  rw [getBatteryVoltage_of_valid _ (by simpa [cachedAt] using h)]; rfl

theorem getBatteryVoltage_bootWith (m : ℕ → ℚ) (sane : Bool) :
    (getBatteryVoltage (bootWith m sane)).1 = m 0 := by
  simp [getBatteryVoltage, bootWith, ProcessorStats.update]

theorem classify_of_lt_low {v : ℚ} (h : v < 3.4) : classify v = Band.Critical := by
  simp [classify, lowThreshold, h]

theorem classify_of_mid {v : ℚ} (h1 : 3.4 ≤ v) (h2 : v < 3.55) :
    classify v = Band.Moderate := by
  simp [classify, lowThreshold, highThreshold, not_lt.mpr h1, h2]

theorem classify_of_ge_high {v : ℚ} (h : 3.55 ≤ v) : classify v = Band.Normal := by
  have h1 : ¬ v < 3.4 := by
    have : (3.4 : ℚ) ≤ 3.55 := by norm_num
    exact not_lt.mpr (this.trans h)
  simp [classify, lowThreshold, highThreshold, h1, not_lt.mpr h]

/-! ## The per-cycle policy: `loop()` -/

/-- C1: for every battery voltage `v` with `v < 3.40`, one run of `loop()`
issues exactly the sleep call `dataLogger.systemSleep` and neither `logData`
nor `logDataAndPublish`. -/
theorem loop_sleeps_below_low (w : World) (v : ℚ)
    (hv : (getBatteryVoltage w).1 = v) (hlow : v < 3.40) :
    callsDuring loop w = [Call.systemSleep] ∧
      Call.logData ∉ callsDuring loop w ∧
      Call.logDataAndPublish ∉ callsDuring loop w := by
  have hc : classify (getBatteryVoltage w).1 = Band.Critical :=
    classify_of_lt_low (by rw [hv]; norm_num at hlow ⊢; exact hlow)
  have h : callsDuring loop w = [Call.systemSleep] := by
    rw [loop_calls, hc]; rfl
  simp [h]

theorem loop_sleeps_below_low_witness :
    (3.39 : ℚ) < 3.40 ∧
      callsDuring loop (cachedAt 3.39) = [Call.systemSleep] ∧
      Call.logData ∉ callsDuring loop (cachedAt 3.39) ∧
      Call.logDataAndPublish ∉ callsDuring loop (cachedAt 3.39) :=
  ⟨by norm_num,
    loop_sleeps_below_low (cachedAt 3.39) 3.39
      (getBatteryVoltage_cachedAt _ (by norm_num [badValue])) (by norm_num)⟩

/-- C3: for every battery voltage `v` with `v ≥ 3.55`, one run of `loop()`
issues exactly `dataLogger.logDataAndPublish` and neither `systemSleep` nor
`logData`; the band is Normal, in particular at `v = 3.55`. -/
theorem loop_publishes_from_high (w : World) (v : ℚ)
    (hv : (getBatteryVoltage w).1 = v) (hhigh : v ≥ 3.55) :
    classify v = Band.Normal ∧
      callsDuring loop w = [Call.logDataAndPublish] ∧
      Call.systemSleep ∉ callsDuring loop w ∧
      Call.logData ∉ callsDuring loop w := by
  have hc : classify v = Band.Normal := classify_of_ge_high hhigh
  have h : callsDuring loop w = [Call.logDataAndPublish] := by
    rw [loop_calls, hv, hc]; rfl
  simp [h, hc]

theorem loop_publishes_from_high_witness :
    (3.55 : ℚ) ≥ 3.55 ∧
      classify 3.55 = Band.Normal ∧
      callsDuring loop (cachedAt 3.55) = [Call.logDataAndPublish] ∧
      Call.systemSleep ∉ callsDuring loop (cachedAt 3.55) ∧
      Call.logData ∉ callsDuring loop (cachedAt 3.55) :=
  ⟨le_refl _,
    loop_publishes_from_high (cachedAt 3.55) 3.55
      (getBatteryVoltage_cachedAt _ (by norm_num [badValue])) (le_refl _)⟩

/-- C5: when `getBatteryVoltage` still returns the sentinel `-9999` after its
update attempt, the cycle is Critical: `loop()` issues `systemSleep` only,
never `logData` or `logDataAndPublish`. -/
theorem loop_sleeps_on_sentinel (w : World)
    (hbad : (getBatteryVoltage w).1 = badValue) :
    classify (getBatteryVoltage w).1 = Band.Critical ∧
      callsDuring loop w = [Call.systemSleep] ∧
      Call.logData ∉ callsDuring loop w ∧
      Call.logDataAndPublish ∉ callsDuring loop w := by
  have hc : classify (getBatteryVoltage w).1 = Band.Critical :=
    classify_of_lt_low (by rw [hbad]; exact badValue_lt_low)
  have h : callsDuring loop w = [Call.systemSleep] := by
    rw [loop_calls, hc]; rfl
  simp [h, hc]

theorem loop_sleeps_on_sentinel_witness :
    (getBatteryVoltage (bootWith (fun _ => -9999) true)).1 = badValue ∧
      classify (getBatteryVoltage (bootWith (fun _ => -9999) true)).1 = Band.Critical ∧
      callsDuring loop (bootWith (fun _ => -9999) true) = [Call.systemSleep] ∧
      Call.logData ∉ callsDuring loop (bootWith (fun _ => -9999) true) ∧
      Call.logDataAndPublish ∉ callsDuring loop (bootWith (fun _ => -9999) true) :=
  ⟨getBatteryVoltage_bootWith _ _,
    loop_sleeps_on_sentinel (bootWith (fun _ => -9999) true)
      (getBatteryVoltage_bootWith _ _)⟩

/-- C7: one run of `loop()` acts on a single voltage reading.  It issues
exactly one call, which is one of `systemSleep`, `logData`,
`logDataAndPublish` and is determined by the value the first
`getBatteryVoltage()` returned; whenever the second comparison is reached,
its `getBatteryVoltage()` call returns that same value and measures nothing
(the state, with its count of `update()` calls, is unchanged); two runs that
read the same voltage choose the same action. -/
theorem loop_single_reading (w : World) :
    callsDuring loop w = [(classify (getBatteryVoltage w).1).action] ∧
      ((classify (getBatteryVoltage w).1).action = Call.systemSleep ∨
        (classify (getBatteryVoltage w).1).action = Call.logData ∨
        (classify (getBatteryVoltage w).1).action = Call.logDataAndPublish) ∧
      (¬ (getBatteryVoltage w).1 < 3.4 →
        getBatteryVoltage (getBatteryVoltage w).2 =
          ((getBatteryVoltage w).1, (getBatteryVoltage w).2)) ∧
      (loop w).mcuBoard = (getBatteryVoltage w).2.mcuBoard ∧
      (∀ w2 : World, (getBatteryVoltage w2).1 = (getBatteryVoltage w).1 →
        callsDuring loop w2 = callsDuring loop w) := by
  refine ⟨loop_calls w, ?_, ?_, ?_, ?_⟩
  · cases classify (getBatteryVoltage w).1 <;> simp [Band.action]
  · intro h
    have hne : (getBatteryVoltage w).1 ≠ badValue := by
      intro hb; exact h (hb ▸ badValue_lt_low)
    rw [getBatteryVoltage_again w hne]
  · rw [loop_eq]; rfl
  · intro w2 h
    rw [loop_calls, loop_calls, h]

theorem loop_single_reading_witness :
    callsDuring loop (bootWith (fun _ => 3.5) true) = [Call.logData] ∧
      getBatteryVoltage (getBatteryVoltage (bootWith (fun _ => 3.5) true)).2 =
        ((getBatteryVoltage (bootWith (fun _ => 3.5) true)).1,
          (getBatteryVoltage (bootWith (fun _ => 3.5) true)).2) ∧
      (loop (bootWith (fun _ => 3.5) true)).mcuBoard.updates = 1 := by
  have h := loop_single_reading (bootWith (fun _ => 3.5) true)
  have hv : (getBatteryVoltage (bootWith (fun _ => 3.5) true)).1 = 3.5 :=
    getBatteryVoltage_bootWith _ _
  refine ⟨?_, h.2.2.1 (by rw [hv]; norm_num), ?_⟩
  · rw [h.1, hv, classify_of_mid (by norm_num) (by norm_num)]; rfl
  · rw [h.2.2.2.1]
    simp [getBatteryVoltage, bootWith, ProcessorStats.update]

/-! ## The cached voltage query -/

/-- C8: `getBatteryVoltage` measures only when no valid value is cached.
With a cached value other than `-9999` it returns that value and leaves the
whole state, including the count of `update()` calls, unchanged.  With
`-9999` cached it runs `mcuBoard.update()` exactly once and returns the value
the battery slot holds after that update. -/
theorem getBatteryVoltage_measures_only_without_cache (w : World) :
    (w.mcuBoard.sensorValues0 ≠ badValue →
        getBatteryVoltage w = (w.mcuBoard.sensorValues0, w)) ∧
      (w.mcuBoard.sensorValues0 = badValue →
        (getBatteryVoltage w).2.mcuBoard = w.mcuBoard.update ∧
        (getBatteryVoltage w).2.mcuBoard.updates = w.mcuBoard.updates + 1 ∧
        (getBatteryVoltage w).1 = w.mcuBoard.update.sensorValues0 ∧
        (getBatteryVoltage w).1 = w.mcuBoard.measure w.mcuBoard.updates ∧
        (getBatteryVoltage w).2.calls = w.calls ∧
        (getBatteryVoltage w).2.rtcSane = w.rtcSane) := by
  refine ⟨getBatteryVoltage_of_valid w, ?_⟩
  intro h
  simp [getBatteryVoltage, h, ProcessorStats.update]

theorem getBatteryVoltage_measures_only_without_cache_witness :
    getBatteryVoltage (cachedAt 3.6) = (3.6, cachedAt 3.6) ∧
      (getBatteryVoltage (bootWith (fun _ => 3.6) true)).1 = 3.6 ∧
      (getBatteryVoltage (bootWith (fun _ => 3.6) true)).2.mcuBoard.updates = 1 :=
  ⟨(getBatteryVoltage_measures_only_without_cache (cachedAt 3.6)).1
      (by norm_num [cachedAt, badValue]),
    ((getBatteryVoltage_measures_only_without_cache
      (bootWith (fun _ => 3.6) true)).2 rfl).2.2.2.1,
    ((getBatteryVoltage_measures_only_without_cache
      (bootWith (fun _ => 3.6) true)).2 rfl).2.1⟩

/-! ## The boot-time gates: `setup()` -/

/-- The calls `setup()` makes, gate by gate. -/
theorem setup_calls (w : World) :
    callsDuring setup w =
      [Call.setLoggerTimeZone, Call.setRTCTimeZone, Call.attachModem,
        Call.setModemLED, Call.setLoggerPins, Call.begin] ++
      (if voltageAtSensorGate w > 3.4 then [Call.setupSensors] else []) ++
      (if voltageAtSyncGate w > 3.55 ∨ w.rtcSane = false then [Call.syncRTC] else []) ++
      (if voltageAtLogFileGate w > 3.4 then
        [Call.turnOnSDcard, Call.createLogFile, Call.turnOffSDcard] else []) ++
      [Call.systemSleep] := by
  apply callsDuring_of_append
  unfold setup voltageAtSensorGate voltageAtSyncGate voltageAtLogFileGate
  simp only [getBatteryVoltage_invoke]
  by_cases h1 : (getBatteryVoltage w).1 > 3.4 <;>
  by_cases h2 : (getBatteryVoltage (getBatteryVoltage w).2).1 > 3.55 <;>
  by_cases h3 : (getBatteryVoltage (getBatteryVoltage (getBatteryVoltage w).2).2).1 > 3.4 <;>
  cases hs : w.rtcSane <;>
  simp [h1, h2, h3, hs, getBatteryVoltage_invoke, World.isRTCSane]

/-- Once the first query of `setup()` returned a valid value, the two later
gates see that same value. -/
theorem gates_agree_of_valid (w : World) (h : (getBatteryVoltage w).1 ≠ badValue) :
    voltageAtSyncGate w = (getBatteryVoltage w).1 ∧
      voltageAtLogFileGate w = (getBatteryVoltage w).1 := by
  unfold voltageAtSyncGate voltageAtLogFileGate
  rw [getBatteryVoltage_again w h, getBatteryVoltage_again w h]
  exact ⟨rfl, rfl⟩

theorem voltageAtSyncGate_bootWith (c : ℚ) (sane : Bool) (h : c ≠ badValue) :
    voltageAtSyncGate (bootWith (fun _ => c) sane) = c := by
  have hv : (getBatteryVoltage (bootWith (fun _ => c) sane)).1 = c :=
    getBatteryVoltage_bootWith _ _
  rw [(gates_agree_of_valid _ (hv ▸ h)).1, hv]

/-- C9: at boot, `setup()` invokes `dataLogger.syncRTC` if and only if the
clock is not sane or the battery voltage read at that gate is strictly above
3.55; with a sane clock and a voltage `≤ 3.55` no sync is invoked.  The
voltage at that gate is the boot reading whenever the boot reading is
valid. -/
theorem setup_syncRTC_iff (w : World) :
    (Call.syncRTC ∈ callsDuring setup w ↔
        (w.isRTCSane = false ∨ voltageAtSyncGate w > 3.55)) ∧
      (w.isRTCSane = true → voltageAtSyncGate w ≤ 3.55 →
        Call.syncRTC ∉ callsDuring setup w) ∧
      (voltageAtSensorGate w ≠ badValue →
        voltageAtSyncGate w = voltageAtSensorGate w) := by
  have key : Call.syncRTC ∈ callsDuring setup w ↔
      (w.isRTCSane = false ∨ voltageAtSyncGate w > 3.55) := by
    rw [setup_calls, World.isRTCSane]
    by_cases h1 : voltageAtSensorGate w > 3.4 <;>
    by_cases h2 : voltageAtSyncGate w > 3.55 <;>
    by_cases h3 : voltageAtLogFileGate w > 3.4 <;>
    cases hs : w.rtcSane <;> simp [h1, h2, h3, hs]
  refine ⟨key, ?_, fun h => (gates_agree_of_valid w h).1⟩
  intro hs hv hin
  rcases key.mp hin with h | h
  · rw [hs] at h; exact Bool.noConfusion h
  · exact absurd h (not_lt.mpr hv)

theorem setup_syncRTC_iff_witness :
    Call.syncRTC ∉ callsDuring setup (bootWith (fun _ => 3.55) true) ∧
      Call.syncRTC ∈ callsDuring setup (bootWith (fun _ => 3.56) true) ∧
      Call.syncRTC ∈ callsDuring setup (bootWith (fun _ => 3.39) false) :=
  ⟨(setup_syncRTC_iff (bootWith (fun _ => 3.55) true)).2.1 rfl
      (by rw [voltageAtSyncGate_bootWith _ _ (by norm_num [badValue])]),
    (setup_syncRTC_iff (bootWith (fun _ => 3.56) true)).1.mpr
      (Or.inr (by rw [voltageAtSyncGate_bootWith _ _ (by norm_num [badValue])]; norm_num)),
    (setup_syncRTC_iff (bootWith (fun _ => 3.39) false)).1.mpr (Or.inl rfl)⟩

/-! ## The variable list and its identifiers -/

/-- C6: the positional pairing of `variableList` with `UUIDs` gives each
variable its own identifier: `UUIDs` has exactly as many entries as
`variableList`, namely `variableCount = 13`, every index below
`variableCount` has a UUID, and no UUID occurs at two positions.  The table
of `UUIDs.h` is the same table. -/
theorem uuids_pair_variables_uniquely :
    UUIDs.length = variableList.length ∧
      variableCount = 13 ∧
      (∀ i, i < variableCount → ∃ u, UUIDs[i]? = some u) ∧
      (∀ i j, i < variableCount → j < variableCount →
        UUIDs[i]? = UUIDs[j]? → i = j) ∧
      UUIDs.Nodup ∧
      (variableList.zip UUIDs).length = variableCount ∧
      JaxLogger.UUIDs = UUIDs := by
  have hlen : UUIDs.length = 13 := by decide
  have hnd : UUIDs.Nodup := by decide
  refine ⟨by decide, by decide, ?_, ?_, hnd, by decide, by decide⟩
  · intro i hi
    have hc : variableCount = 13 := by decide
    have hi2 : i < UUIDs.length := by omega
    exact ⟨UUIDs[i], List.getElem?_eq_getElem hi2⟩
  · intro i j hi hj h
    have hc : variableCount = 13 := by decide
    have hi2 : i < UUIDs.length := by omega
    have hj2 : j < UUIDs.length := by omega
    rw [List.getElem?_eq_getElem hi2, List.getElem?_eq_getElem hj2] at h
    exact (List.Nodup.getElem_inj_iff hnd).mp (Option.some.inj h)

/-! ## Rounding -/

theorem roundHalfEven_of_near {x : ℚ} {n : ℤ} (h1 : (n : ℚ) - 1 / 2 < x)
    (h2 : x < n + 1 / 2) : roundHalfEven x = n := by
  unfold roundHalfEven
  by_cases hx : (n : ℚ) ≤ x
  · have hf : ⌊x⌋ = n := Int.floor_eq_iff.mpr ⟨hx, by linarith⟩
    rw [hf, if_pos (by linarith)]
  · push_neg at hx
    have hf : ⌊x⌋ = n - 1 :=
      Int.floor_eq_iff.mpr ⟨by push_cast; linarith, by push_cast; linarith⟩
    rw [hf]
    push_cast
    rw [if_neg (by linarith), if_pos (by linarith)]
    ring

theorem roundHalfEven_of_tie {x : ℚ} {n : ℤ} (h : x = n + 1 / 2) :
    roundHalfEven x = if n % 2 = 0 then n else n + 1 := by
  have hf : ⌊x⌋ = n := Int.floor_eq_iff.mpr ⟨by linarith, by linarith⟩
  unfold roundHalfEven
  rw [hf, if_neg (by linarith), if_neg (by linarith)]

theorem roundHalfEven_of_tie_even {x : ℚ} {n : ℤ} (h : x = n + 1 / 2) (he : n % 2 = 0) :
    roundHalfEven x = n := by
  rw [roundHalfEven_of_tie h, if_pos he]

theorem roundHalfEven_intCast (n : ℤ) : roundHalfEven (n : ℚ) = n :=
  roundHalfEven_of_near (by linarith) (by linarith)

theorem log2_eq {r : ℚ} {k : ℤ} (h1 : (2 : ℚ) ^ k ≤ r) (h2 : r < 2 ^ (k + 1)) :
    Int.log 2 r = k := by
  have hr : 0 < r := lt_of_lt_of_le (by positivity) h1
  have a : k ≤ Int.log 2 r :=
    (Int.zpow_le_iff_le_log (by norm_num) hr).mp (by simpa using h1)
  have b : Int.log 2 r < k + 1 :=
    (Int.lt_zpow_iff_log_lt (by norm_num) hr).mp (by simpa using h2)
  omega

theorem FloatFormat.roundQ_eq (f : FloatFormat) (x : ℚ) (k qe n : ℤ)
    (h1 : (2 : ℚ) ^ k ≤ |x|) (h2 : |x| < 2 ^ (k + 1))
    (hq : qe = max k (1 - f.emax) - ((f.prec : ℤ) - 1))
    (hn : roundHalfEven (x / 2 ^ qe) = n) : f.roundQ x = n * 2 ^ qe := by
  unfold FloatFormat.roundQ FloatFormat.quantumExp
  rw [log2_eq h1 h2, ← hq, hn]

theorem FloatFormat.round_eq (f : FloatFormat) (x : ℚ) (k qe n : ℤ)
    (h1 : (2 : ℚ) ^ k ≤ |x|) (h2 : |x| < 2 ^ (k + 1))
    (hq : qe = max k (1 - f.emax) - ((f.prec : ℤ) - 1))
    (hn : roundHalfEven (x / 2 ^ qe) = n)
    (hov : |(n : ℚ) * 2 ^ qe| < 2 ^ (f.emax + 1)) : f.round x = FVal.fin (n * 2 ^ qe) := by
  unfold FloatFormat.round
  rw [f.roundQ_eq x k qe n h1 h2 hq hn, if_neg (not_le.mpr hov)]


theorem two_zpow_le {a b : ℤ} (h : a ≤ b) : (2 : ℚ) ^ a ≤ 2 ^ b :=
  zpow_le_zpow_right₀ (by norm_num) h

theorem FloatFormat.Rep.abs_lt (f : FloatFormat) {m e : ℤ} (hm : |m| < 2 ^ f.prec) :
    |(m : ℚ) * 2 ^ e| < 2 ^ (e + f.prec) := by
  have h2 : (0 : ℚ) < 2 ^ e := by positivity
  have hm2 : |(m : ℚ)| < 2 ^ f.prec := by exact_mod_cast hm
  rw [abs_mul, abs_of_pos h2, zpow_add₀ (by norm_num), zpow_natCast, mul_comm]
  exact mul_lt_mul_of_pos_left hm2 h2

theorem FloatFormat.roundQ_of_rep (f : FloatFormat) {x : ℚ} (h : f.Rep x) :
    f.roundQ x = x := by
  obtain ⟨m, e, hm, he1, _, rfl⟩ := h
  by_cases hm0 : m = 0
  · subst hm0
    simp [FloatFormat.roundQ, roundHalfEven]
  have hx : 0 < |(m : ℚ) * 2 ^ e| := by
    have : (m : ℚ) ≠ 0 := by exact_mod_cast hm0
    positivity
  have hlog : Int.log 2 |(m : ℚ) * 2 ^ e| < e + f.prec :=
    (Int.lt_zpow_iff_log_lt (by norm_num) hx).mp (by simpa using FloatFormat.Rep.abs_lt f hm)
  have hle : f.quantumExp ((m : ℚ) * 2 ^ e) ≤ e := by
    unfold FloatFormat.quantumExp
    rcases max_cases (Int.log 2 |(m : ℚ) * 2 ^ e|) (1 - f.emax) with ⟨h, _⟩ | ⟨h, _⟩ <;>
      rw [h] <;> omega
  unfold FloatFormat.roundQ
  generalize f.quantumExp ((m : ℚ) * 2 ^ e) = qe at hle
  have hN : (m : ℚ) * 2 ^ e / 2 ^ qe = ((m * 2 ^ (e - qe).toNat : ℤ) : ℚ) := by
    push_cast
    rw [mul_div_assoc, ← zpow_sub₀ (by norm_num), ← zpow_natCast,
      Int.toNat_of_nonneg (by omega)]
  rw [hN, roundHalfEven_intCast, ← hN]
  have : (2 : ℚ) ^ qe ≠ 0 := by positivity
  field_simp

theorem FloatFormat.round_of_rep (f : FloatFormat) {x : ℚ} (h : f.Rep x) :
    f.round x = FVal.fin x := by
  unfold FloatFormat.round
  rw [f.roundQ_of_rep h]
  obtain ⟨m, e, hm, _, he2, rfl⟩ := h
  rw [if_neg]
  rw [not_le]
  calc |(m : ℚ) * 2 ^ e| < 2 ^ (e + f.prec) := FloatFormat.Rep.abs_lt f hm
    _ ≤ 2 ^ (f.emax + 1) := two_zpow_le (by omega)

theorem rep64_of_rep32 {x : ℚ} (h : binary32.Rep x) : binary64.Rep x := by
  obtain ⟨m, e, hm, he1, he2, rfl⟩ := h
  refine ⟨m, e, ?_, ?_, ?_, rfl⟩
  · have : (2 : ℤ) ^ binary32.prec ≤ 2 ^ binary64.prec := by norm_num [binary32, binary64]
    exact lt_of_lt_of_le hm this
  · simp only [binary32, binary64] at he1 ⊢; omega
  · simp only [binary32, binary64] at he2 ⊢; omega

/-- A binary32 value of magnitude at least 2 is a multiple of `2 ^ (-22)`. -/
theorem rep32_grid {v : ℚ} (h : binary32.Rep v) (hv : 2 ≤ |v|) :
    ∃ k : ℤ, v = k / 2 ^ 22 := by
  obtain ⟨m, e, hm, _, _, rfl⟩ := h
  by_cases he : -22 ≤ e
  · refine ⟨m * 2 ^ (e + 22).toNat, ?_⟩
    push_cast
    rw [← zpow_natCast, Int.toNat_of_nonneg (by omega), zpow_add₀ (by norm_num)]
    norm_num
    ring
  · exfalso
    have h1 := FloatFormat.Rep.abs_lt binary32 (e := e) hm
    have h2 : (2 : ℚ) ^ (e + binary32.prec) ≤ 2 ^ (1 : ℤ) :=
      two_zpow_le (by simp only [binary32]; omega)
    norm_num at h2
    linarith


theorem FloatFormat.div_fin_fin (f : FloatFormat) (a b : ℚ) (hb : b ≠ 0) :
    f.div (FVal.fin a) (FVal.fin b) = f.round (a / b) := by
  show (if b = 0 then (if a = 0 then FVal.nan else FVal.inf (decide (a < 0)))
    else f.round (a / b)) = _
  rw [if_neg hb]

theorem rep_of_rep32 (d : DoubleWidth) {x : ℚ} (h : binary32.Rep x) : d.format.Rep x := by
  cases d
  · exact h
  · exact rep64_of_rep32 h

theorem rep32_zero : binary32.Rep 0 :=
  ⟨0, 0, by norm_num [binary32], by norm_num [binary32], by norm_num [binary32], by norm_num⟩

theorem rep32_one : binary32.Rep 1 :=
  ⟨1, 0, by norm_num [binary32], by norm_num [binary32], by norm_num [binary32], by norm_num⟩

/-! ## The threshold literals as `double` values -/

theorem literal_low_bits32 : DoubleWidth.bits32.literal 3.4 = 7130317 / 2097152 := by
  show binary32.roundQ 3.4 = _
  rw [binary32.roundQ_eq 3.4 1 (-22) 14260634 (by norm_num [abs_of_pos])
    (by norm_num [abs_of_pos]) (by norm_num [binary32])
    (roundHalfEven_of_near (by norm_num) (by norm_num))]
  norm_num

theorem literal_low_bits64 :
    DoubleWidth.bits64.literal 3.4 = 7656119366529843 / 2251799813685248 := by
  show binary64.roundQ 3.4 = _
  rw [binary64.roundQ_eq 3.4 1 (-51) 7656119366529843 (by norm_num [abs_of_pos])
    (by norm_num [abs_of_pos]) (by norm_num [binary64])
    (roundHalfEven_of_near (by norm_num) (by norm_num))]
  norm_num

theorem literal_high_bits32 : DoubleWidth.bits32.literal 3.55 = 14889779 / 4194304 := by
  show binary32.roundQ 3.55 = _
  rw [binary32.roundQ_eq 3.55 1 (-22) 14889779 (by norm_num [abs_of_pos])
    (by norm_num [abs_of_pos]) (by norm_num [binary32])
    (roundHalfEven_of_near (by norm_num) (by norm_num))]
  norm_num

theorem literal_high_bits64 :
    DoubleWidth.bits64.literal 3.55 = 3996944669291315 / 1125899906842624 := by
  show binary64.roundQ 3.55 = _
  rw [binary64.roundQ_eq 3.55 1 (-51) 7993889338582630 (by norm_num [abs_of_pos])
    (by norm_num [abs_of_pos]) (by norm_num [binary64])
    (roundHalfEven_of_near (by norm_num) (by norm_num))]
  norm_num

theorem badValue_lt_literal_low (d : DoubleWidth) : badValue < d.literal 3.4 := by
  cases d
  · rw [literal_low_bits32]; norm_num [badValue]
  · rw [literal_low_bits64]; norm_num [badValue]

theorem rep32_float_3_4 : binary32.Rep float_3_4 :=
  ⟨14260634, -22, by norm_num [binary32], by norm_num [binary32], by norm_num [binary32],
    by norm_num [float_3_4]⟩

theorem rep32_float_3_55 : binary32.Rep float_3_55 :=
  ⟨14889779, -22, by norm_num [binary32], by norm_num [binary32], by norm_num [binary32],
    by norm_num [float_3_55]⟩

/-- No `float` lies between 3.40 and `3.4f`: a `float` that is at least 3.40 is
at least `3.4f`. -/
theorem float_3_4_le_of_rep {v : ℚ} (hf : binary32.Rep v) (h : 3.40 ≤ v) :
    float_3_4 ≤ v := by
  have hv : (2 : ℚ) ≤ |v| := by
    rw [abs_of_nonneg (by linarith)]; linarith
  obtain ⟨k, rfl⟩ := rep32_grid hf hv
  have h1 : (71303168 : ℚ) ≤ 5 * k := by
    have : (3.40 : ℚ) * 2 ^ 22 ≤ k := by
      rwa [le_div_iff₀ (by positivity)] at h
    norm_num at this
    linarith
  have h2 : (71303168 : ℤ) ≤ 5 * k := by exact_mod_cast h1
  have h3 : (14260634 : ℤ) ≤ k := by omega
  have h4 : (14260634 : ℚ) ≤ k := by exact_mod_cast h3
  unfold float_3_4
  rw [le_div_iff₀ (by positivity)]
  norm_num
  linarith

/-! ## `loopOn` and `setupOn` -/

/-- Shape of one run of `loopOn d`. -/
theorem loopOn_calls (d : DoubleWidth) (w : World) :
    callsDuring (loopOn d) w =
      [if (getBatteryVoltage w).1 < d.literal 3.4 then Call.systemSleep
        else if (getBatteryVoltage w).1 < d.literal 3.55 then Call.logData
        else Call.logDataAndPublish] := by
  apply callsDuring_of_append
  unfold loopOn
  by_cases h1 : (getBatteryVoltage w).1 < d.literal 3.4
  · simp [h1]
  · have hne : (getBatteryVoltage w).1 ≠ badValue := by
      intro h; exact h1 (h ▸ badValue_lt_literal_low d)
    simp only [h1, if_false, getBatteryVoltage_again w hne]
    by_cases h2 : (getBatteryVoltage w).1 < d.literal 3.55 <;> simp [h2]

/-- The calls `setupOn d` makes, gate by gate. -/
theorem setupOn_calls (d : DoubleWidth) (w : World) :
    callsDuring (setupOn d) w =
      [Call.setLoggerTimeZone, Call.setRTCTimeZone, Call.attachModem,
        Call.setModemLED, Call.setLoggerPins, Call.begin] ++
      (if voltageAtSensorGate w > d.literal 3.4 then [Call.setupSensors] else []) ++
      (if voltageAtSyncGate w > d.literal 3.55 ∨ w.rtcSane = false then [Call.syncRTC]
        else []) ++
      (if voltageAtLogFileGate w > d.literal 3.4 then
        [Call.turnOnSDcard, Call.createLogFile, Call.turnOffSDcard] else []) ++
      [Call.systemSleep] := by
  apply callsDuring_of_append
  unfold setupOn voltageAtSensorGate voltageAtSyncGate voltageAtLogFileGate
  simp only [getBatteryVoltage_invoke]
  by_cases h1 : (getBatteryVoltage w).1 > d.literal 3.4 <;>
  by_cases h2 : (getBatteryVoltage (getBatteryVoltage w).2).1 > d.literal 3.55 <;>
  by_cases h3 :
    (getBatteryVoltage (getBatteryVoltage (getBatteryVoltage w).2).2).1 > d.literal 3.4 <;>
  cases hs : w.rtcSane <;>
  simp [h1, h2, h3, hs, getBatteryVoltage_invoke, World.isRTCSane]

theorem gates_bootWith (c : ℚ) (sane : Bool) (h : c ≠ badValue) :
    voltageAtSensorGate (bootWith (fun _ => c) sane) = c ∧
      voltageAtSyncGate (bootWith (fun _ => c) sane) = c ∧
      voltageAtLogFileGate (bootWith (fun _ => c) sane) = c := by
  have hv : (getBatteryVoltage (bootWith (fun _ => c) sane)).1 = c :=
    getBatteryVoltage_bootWith _ _
  have hg := gates_agree_of_valid _ (hv ▸ h)
  exact ⟨hv, hg.1.trans hv, hg.2.trans hv⟩

/-- C2, as amended: on either width of `double`, for every `float` reading `v`
with `3.40 ≤ v` that is below the value the target gives the literal `3.55`
(`3.55f` when `double` has 32 bits), one run of `loop()` issues exactly
`dataLogger.logData` and neither `logDataAndPublish` nor `systemSleep`.  The
readings `3.4f` and `14889775 / 4194304`, the `float` values nearest to 3.40 and
to 3.549999, are instances. -/
theorem loopOn_logs_between (d : DoubleWidth) (w : World) (v : ℚ)
    (hv : (getBatteryVoltage w).1 = v) (hf : binary32.Rep v)
    (hlow : 3.40 ≤ v) (hhigh : v < d.literal 3.55) :
    callsDuring (loopOn d) w = [Call.logData] ∧
      Call.logDataAndPublish ∉ callsDuring (loopOn d) w ∧
      Call.systemSleep ∉ callsDuring (loopOn d) w := by
  have h1 : ¬ v < d.literal 3.4 := by
    rw [not_lt]
    cases d
    · rw [literal_low_bits32]; exact float_3_4_le_of_rep hf hlow
    · rw [literal_low_bits64]; norm_num at hlow ⊢; linarith
  have h : callsDuring (loopOn d) w = [Call.logData] := by
    rw [loopOn_calls, hv, if_neg h1, if_pos hhigh]
  simp [h]

theorem loopOn_logs_between_witness :
    (binary32.Rep float_3_4 ∧ 3.40 ≤ float_3_4 ∧
        float_3_4 < DoubleWidth.bits32.literal 3.55) ∧
      (callsDuring (loopOn DoubleWidth.bits32) (cachedAt float_3_4) = [Call.logData] ∧
        Call.logDataAndPublish ∉ callsDuring (loopOn DoubleWidth.bits32) (cachedAt float_3_4) ∧
        Call.systemSleep ∉ callsDuring (loopOn DoubleWidth.bits32) (cachedAt float_3_4)) ∧
      (binary32.Rep float_3_55 ∧ 3.40 ≤ float_3_55 ∧
        float_3_55 < DoubleWidth.bits64.literal 3.55) ∧
      (callsDuring (loopOn DoubleWidth.bits64) (cachedAt float_3_55) = [Call.logData] ∧
        Call.logDataAndPublish ∉
          callsDuring (loopOn DoubleWidth.bits64) (cachedAt float_3_55) ∧
        Call.systemSleep ∉ callsDuring (loopOn DoubleWidth.bits64) (cachedAt float_3_55)) ∧
      (callsDuring (loopOn DoubleWidth.bits32) (cachedAt (14889775 / 4194304)) =
          [Call.logData] ∧
        Call.logDataAndPublish ∉
          callsDuring (loopOn DoubleWidth.bits32) (cachedAt (14889775 / 4194304)) ∧
        Call.systemSleep ∉
          callsDuring (loopOn DoubleWidth.bits32) (cachedAt (14889775 / 4194304))) :=
  ⟨⟨rep32_float_3_4, by norm_num [float_3_4],
      by rw [literal_high_bits32]; norm_num [float_3_4]⟩,
    loopOn_logs_between DoubleWidth.bits32 (cachedAt float_3_4) float_3_4
      (getBatteryVoltage_cachedAt _ (by norm_num [float_3_4, badValue])) rep32_float_3_4
      (by norm_num [float_3_4]) (by rw [literal_high_bits32]; norm_num [float_3_4]),
    ⟨rep32_float_3_55, by norm_num [float_3_55],
      by rw [literal_high_bits64]; norm_num [float_3_55]⟩,
    loopOn_logs_between DoubleWidth.bits64 (cachedAt float_3_55) float_3_55
      (getBatteryVoltage_cachedAt _ (by norm_num [float_3_55, badValue])) rep32_float_3_55
      (by norm_num [float_3_55]) (by rw [literal_high_bits64]; norm_num [float_3_55]),
    loopOn_logs_between DoubleWidth.bits32 (cachedAt (14889775 / 4194304))
      (14889775 / 4194304)
      (getBatteryVoltage_cachedAt _ (by norm_num [badValue]))
      ⟨14889775, -22, by norm_num [binary32], by norm_num [binary32],
        by norm_num [binary32], by norm_num⟩
      (by norm_num) (by rw [literal_high_bits32]; norm_num)⟩

/-- C2, as stated, fails on the target with a 32-bit `double` at the reading
`3.55f`: it is a `float`, it satisfies `3.40 ≤ v < 3.55`, and `loop()` issues
`logDataAndPublish`, because the literal `3.55` is `3.55f` there and
`3.55f < 3.55f` is false. -/
theorem loopOn_publishes_at_float_high :
    binary32.Rep float_3_55 ∧ 3.40 ≤ float_3_55 ∧ float_3_55 < 3.55 ∧
      callsDuring (loopOn DoubleWidth.bits32) (cachedAt float_3_55) =
        [Call.logDataAndPublish] := by
  refine ⟨rep32_float_3_55, by norm_num [float_3_55], by norm_num [float_3_55], ?_⟩
  rw [loopOn_calls, getBatteryVoltage_cachedAt _ (by norm_num [float_3_55, badValue]),
    literal_low_bits32, literal_high_bits32]
  norm_num [float_3_55]

/-- C4 fails in the code on the target with a 32-bit `double` at a boot that
measures `3.4f`, the `float` nearest to 3.40: the reading is a `float` with
`v ≥ 3.40`, yet `setup()` invokes neither `varArray.setupSensors` nor
`dataLogger.createLogFile`, because the literal `3.4` is `3.4f` there and
`3.4f > 3.4f` is false; `loop()` at that same reading calls `logData`.  With a
64-bit `double` the same boot invokes both. -/
theorem setupOn_skips_at_float_low :
    binary32.Rep float_3_4 ∧ float_3_4 ≥ 3.40 ∧
      Call.setupSensors ∉
        callsDuring (setupOn DoubleWidth.bits32) (bootWith (fun _ => float_3_4) true) ∧
      Call.createLogFile ∉
        callsDuring (setupOn DoubleWidth.bits32) (bootWith (fun _ => float_3_4) true) ∧
      callsDuring (loopOn DoubleWidth.bits32) (cachedAt float_3_4) = [Call.logData] ∧
      Call.setupSensors ∈
        callsDuring (setupOn DoubleWidth.bits64) (bootWith (fun _ => float_3_4) true) ∧
      Call.createLogFile ∈
        callsDuring (setupOn DoubleWidth.bits64) (bootWith (fun _ => float_3_4) true) := by
  have hg := gates_bootWith float_3_4 true (by norm_num [float_3_4, badValue])
  refine ⟨rep32_float_3_4, by norm_num [float_3_4], ?_, ?_, ?_, ?_, ?_⟩
  · rw [setupOn_calls, hg.1, hg.2.1, hg.2.2, literal_low_bits32, literal_high_bits32]
    norm_num [float_3_4, bootWith]
    all_goals decide
  · rw [setupOn_calls, hg.1, hg.2.1, hg.2.2, literal_low_bits32, literal_high_bits32]
    norm_num [float_3_4, bootWith]
    all_goals decide
  · rw [loopOn_calls, getBatteryVoltage_cachedAt _ (by norm_num [float_3_4, badValue]),
      literal_low_bits32, literal_high_bits32]
    norm_num [float_3_4]
  · rw [setupOn_calls, hg.1, hg.2.1, hg.2.2, literal_low_bits64, literal_high_bits64]
    norm_num [float_3_4, bootWith]
  · rw [setupOn_calls, hg.1, hg.2.1, hg.2.2, literal_low_bits64, literal_high_bits64]
    norm_num [float_3_4, bootWith]

/-! ## Comparisons of a `float` with the thresholds -/

theorem rep32_cases {v : ℚ} (hf : binary32.Rep v) : v < 2 ∨ ∃ k : ℤ, v = k / 2 ^ 22 := by
  by_cases h : v < 2
  · exact Or.inl h
  · right
    exact rep32_grid hf (by rw [abs_of_nonneg (by linarith)]; linarith)

theorem grid_lt_iff (k n : ℤ) (c : ℚ) (h1 : (n : ℚ) < c * 2 ^ 22)
    (h2 : c * 2 ^ 22 ≤ n + 1) : (k : ℚ) / 2 ^ 22 < c ↔ k ≤ n := by
  rw [div_lt_iff₀ (by positivity)]
  constructor
  · intro h
    have h3 : (k : ℚ) < n + 1 := lt_of_lt_of_le h h2
    have h4 : k < n + 1 := by exact_mod_cast h3
    omega
  · intro h
    have h3 : (k : ℚ) ≤ n := by exact_mod_cast h
    linarith

theorem grid_le_iff (k n : ℤ) (c : ℚ) (h1 : (n : ℚ) ≤ c * 2 ^ 22)
    (h2 : c * 2 ^ 22 < n + 1) : (k : ℚ) / 2 ^ 22 ≤ c ↔ k ≤ n := by
  rw [div_le_iff₀ (by positivity)]
  constructor
  · intro h
    have h3 : (k : ℚ) < n + 1 := lt_of_le_of_lt h h2
    have h4 : k < n + 1 := by exact_mod_cast h3
    omega
  · intro h
    have h3 : (k : ℚ) ≤ n := by exact_mod_cast h
    linarith

/-- At every `float`, `v < 3.4` against the `double` literal is `v < 3.40`. -/
theorem lt_literal_low_iff (d : DoubleWidth) {v : ℚ} (hf : binary32.Rep v) :
    v < d.literal 3.4 ↔ v < 3.4 := by
  rcases rep32_cases hf with h | ⟨k, rfl⟩
  · constructor
    · intro _; norm_num; linarith
    · intro _
      cases d
      · rw [literal_low_bits32]; norm_num; linarith
      · rw [literal_low_bits64]; norm_num; linarith
  · rw [grid_lt_iff k 14260633 3.4 (by norm_num) (by norm_num)]
    cases d
    · rw [literal_low_bits32]
      exact grid_lt_iff k 14260633 _ (by norm_num) (by norm_num)
    · rw [literal_low_bits64]
      exact grid_lt_iff k 14260633 _ (by norm_num) (by norm_num)

/-- With a 64-bit `double`, `v < 3.55` against the literal is `v < 3.55` at
every `float`. -/
theorem lt_literal_high_iff_bits64 {v : ℚ} (hf : binary32.Rep v) :
    v < DoubleWidth.bits64.literal 3.55 ↔ v < 3.55 := by
  rw [literal_high_bits64]
  rcases rep32_cases hf with h | ⟨k, rfl⟩
  · constructor <;> intro _ <;> norm_num <;> linarith
  · rw [grid_lt_iff k 14889779 3.55 (by norm_num) (by norm_num)]
    exact grid_lt_iff k 14889779 _ (by norm_num) (by norm_num)

/-- With a 32-bit `double`, `v < 3.55` against the literal is `v < 3.55` at
every `float` except `3.55f`, where it is false. -/
theorem lt_literal_high_iff_bits32 {v : ℚ} (hf : binary32.Rep v) :
    v < DoubleWidth.bits32.literal 3.55 ↔ v < 3.55 ∧ v ≠ float_3_55 := by
  rw [literal_high_bits32]
  rcases rep32_cases hf with h | ⟨k, rfl⟩
  · constructor
    · intro _
      refine ⟨by norm_num; linarith, ?_⟩
      intro he; rw [he] at h; norm_num [float_3_55] at h
    · intro _; norm_num; linarith
  · rw [grid_lt_iff k 14889779 3.55 (by norm_num) (by norm_num),
      grid_lt_iff k 14889778 _ (by norm_num) (by norm_num)]
    have hk : (k : ℚ) / 2 ^ 22 = float_3_55 ↔ k = 14889779 := by
      unfold float_3_55
      rw [div_eq_iff (by positivity)]
      norm_num
      exact_mod_cast Iff.rfl
    rw [Ne, hk]
    omega

/-- At every `float`, `v > 3.55` against the `double` literal is `v > 3.55`. -/
theorem gt_literal_high_iff (d : DoubleWidth) {v : ℚ} (hf : binary32.Rep v) :
    v > d.literal 3.55 ↔ v > 3.55 := by
  have ha : v > d.literal 3.55 ↔ ¬ v ≤ d.literal 3.55 := not_le.symm
  have hb : v > 3.55 ↔ ¬ v ≤ 3.55 := not_le.symm
  rw [ha, hb]
  rcases rep32_cases hf with h | ⟨k, rfl⟩
  · have h1 : v ≤ 3.55 := by norm_num; linarith
    have h2 : v ≤ d.literal 3.55 := by
      cases d
      · rw [literal_high_bits32]; norm_num; linarith
      · rw [literal_high_bits64]; norm_num; linarith
    simp [h1, h2]
  · rw [grid_le_iff k 14889779 3.55 (by norm_num) (by norm_num)]
    cases d
    · rw [literal_high_bits32, grid_le_iff k 14889779 _ (by norm_num) (by norm_num)]
    · rw [literal_high_bits64, grid_le_iff k 14889779 _ (by norm_num) (by norm_num)]

/-- With a 64-bit `double`, `v > 3.4` against the literal is `v ≥ 3.40` at
every `float`. -/
theorem gt_literal_low_iff_bits64 {v : ℚ} (hf : binary32.Rep v) :
    v > DoubleWidth.bits64.literal 3.4 ↔ v ≥ 3.40 := by
  rw [literal_low_bits64]
  have ha : v > 7656119366529843 / 2251799813685248 ↔
      ¬ v ≤ 7656119366529843 / 2251799813685248 := not_le.symm
  have hb : v ≥ 3.40 ↔ ¬ v < 3.40 := not_lt.symm
  rw [ha, hb]
  rcases rep32_cases hf with h | ⟨k, rfl⟩
  · have h1 : v < 3.40 := by norm_num; linarith
    have h2 : v ≤ 7656119366529843 / 2251799813685248 := by norm_num; linarith
    simp [h1, h2]
  · rw [grid_lt_iff k 14260633 3.40 (by norm_num) (by norm_num),
      grid_le_iff k 14260633 _ (by norm_num) (by norm_num)]

/-- With a 32-bit `double`, `v > 3.4` against the literal is `v ≥ 3.40` at
every `float` except `3.4f`, where it is false. -/
theorem gt_literal_low_iff_bits32 {v : ℚ} (hf : binary32.Rep v) :
    v > DoubleWidth.bits32.literal 3.4 ↔ v ≥ 3.40 ∧ v ≠ float_3_4 := by
  rw [literal_low_bits32]
  have ha : v > 7130317 / 2097152 ↔ ¬ v ≤ 7130317 / 2097152 := not_le.symm
  have hb : v ≥ 3.40 ↔ ¬ v < 3.40 := not_lt.symm
  rw [ha, hb]
  rcases rep32_cases hf with h | ⟨k, rfl⟩
  · have h1 : v < 3.40 := by norm_num; linarith
    have h2 : v ≤ 7130317 / 2097152 := by norm_num; linarith
    simp [h1, h2]
  · rw [grid_lt_iff k 14260633 3.40 (by norm_num) (by norm_num),
      grid_le_iff k 14260634 _ (by norm_num) (by norm_num)]
    have hk : (k : ℚ) / 2 ^ 22 = float_3_4 ↔ k = 14260634 := by
      unfold float_3_4
      rw [div_eq_iff (by positivity)]
      norm_num
      exact_mod_cast Iff.rfl
    rw [Ne, hk]
    omega

/-- On either width of `double`, one run of `loop()` issues the call that the
decimal reading `loop` of the thresholds gives, at every `float` reading
other than `3.55f` on the target with a 32-bit `double`. -/
theorem loopOn_calls_eq_loop (d : DoubleWidth) (w : World)
    (hf : binary32.Rep (getBatteryVoltage w).1)
    (hne : ¬ (d = DoubleWidth.bits32 ∧ (getBatteryVoltage w).1 = float_3_55)) :
    callsDuring (loopOn d) w = callsDuring loop w := by
  have hhigh : (getBatteryVoltage w).1 < d.literal 3.55 ↔ (getBatteryVoltage w).1 < 3.55 := by
    cases d
    · rw [lt_literal_high_iff_bits32 hf]
      exact and_iff_left (fun h => hne ⟨rfl, h⟩)
    · exact lt_literal_high_iff_bits64 hf
  rw [loopOn_calls, loop_calls]
  unfold classify lowThreshold highThreshold
  by_cases h1 : (getBatteryVoltage w).1 < 3.4
  · rw [if_pos ((lt_literal_low_iff d hf).mpr h1), if_pos h1]; rfl
  · rw [if_neg (fun h => h1 ((lt_literal_low_iff d hf).mp h)), if_neg h1]
    by_cases h2 : (getBatteryVoltage w).1 < 3.55
    · rw [if_pos (hhigh.mpr h2), if_pos h2]; rfl
    · rw [if_neg (fun h => h2 (hhigh.mp h)), if_neg h2]; rfl

/-- On either width of `double`, `setup()` invokes `syncRTC` exactly when the
decimal reading `setup` of the thresholds does, at every `float` reading of
the sync gate. -/
theorem setupOn_syncRTC_iff_setup (d : DoubleWidth) (w : World)
    (hf : binary32.Rep (voltageAtSyncGate w)) :
    Call.syncRTC ∈ callsDuring (setupOn d) w ↔ Call.syncRTC ∈ callsDuring setup w := by
  have hg := gt_literal_high_iff d hf
  rw [setupOn_calls, setup_calls]
  by_cases h1 : voltageAtSensorGate w > d.literal 3.4 <;>
  by_cases h1b : voltageAtSensorGate w > 3.4 <;>
  by_cases h2 : voltageAtSyncGate w > 3.55 <;>
  by_cases h3 : voltageAtLogFileGate w > d.literal 3.4 <;>
  by_cases h3b : voltageAtLogFileGate w > 3.4 <;>
  cases hs : w.rtcSane <;>
  simp [h1, h1b, h2, hg.mpr, hg, h3, h3b, hs]

/-- Where the code meets C4 and where it does not: at a boot whose reading `v`
is a valid `float`, `setup()` invokes `setupSensors`, and likewise
`createLogFile`, exactly when `v ≥ 3.40`, except at the reading `3.4f` on the
target with a 32-bit `double`, where both are skipped. -/
theorem setupOn_gates_iff (d : DoubleWidth) (w : World) (v : ℚ)
    (hv : (getBatteryVoltage w).1 = v) (hvalid : v ≠ badValue) (hf : binary32.Rep v) :
    (Call.setupSensors ∈ callsDuring (setupOn d) w ↔
        v ≥ 3.40 ∧ ¬ (d = DoubleWidth.bits32 ∧ v = float_3_4)) ∧
      (Call.createLogFile ∈ callsDuring (setupOn d) w ↔
        v ≥ 3.40 ∧ ¬ (d = DoubleWidth.bits32 ∧ v = float_3_4)) := by
  have hg := gates_agree_of_valid w (hv ▸ hvalid)
  have key : v > d.literal 3.4 ↔ v ≥ 3.40 ∧ ¬ (d = DoubleWidth.bits32 ∧ v = float_3_4) := by
    cases d
    · rw [gt_literal_low_iff_bits32 hf]; simp
    · rw [gt_literal_low_iff_bits64 hf]; simp
  rw [← key, setupOn_calls, hg.1, hg.2, voltageAtSensorGate, hv]
  by_cases h1 : v > d.literal 3.4 <;> by_cases h2 : v > d.literal 3.55 <;>
    cases hs : w.rtcSane <;> simp [h1, h2, hs]

/-- When the first measurement of a boot fails and the next one succeeds, the
gates of `setup()` see different readings: the log file is created although
the sensor setup was skipped. -/
theorem setupOn_gates_split_after_failed_reading (d : DoubleWidth) :
    Call.setupSensors ∉
        callsDuring (setupOn d) (bootWith (fun n => if n = 0 then -9999 else 3.625) true) ∧
      Call.createLogFile ∈
        callsDuring (setupOn d) (bootWith (fun n => if n = 0 then -9999 else 3.625) true) := by
  have h1 : voltageAtSensorGate (bootWith (fun n => if n = 0 then -9999 else 3.625) true)
      = -9999 := by
    norm_num [voltageAtSensorGate, getBatteryVoltage, bootWith, ProcessorStats.update, badValue]
  have h2 : voltageAtSyncGate (bootWith (fun n => if n = 0 then -9999 else 3.625) true)
      = 3.625 := by
    norm_num [voltageAtSyncGate, getBatteryVoltage, bootWith, ProcessorStats.update, badValue]
  have h3 : voltageAtLogFileGate (bootWith (fun n => if n = 0 then -9999 else 3.625) true)
      = 3.625 := by
    norm_num [voltageAtLogFileGate, getBatteryVoltage, bootWith, ProcessorStats.update,
      badValue]
  constructor <;>
    · rw [setupOn_calls, h1, h2, h3]
      cases d
      · rw [literal_low_bits32, literal_high_bits32]
        norm_num [bootWith]
        all_goals decide
      · rw [literal_low_bits64, literal_high_bits64]
        norm_num [bootWith]
        all_goals decide

/-! ## The specific-conductance calculation -/

theorem coef_eq (d : DoubleWidth) :
    (FVal.fin (d.literal 0.019)).toFloat = FVal.fin (10200547 / 536870912) := by
  cases d
  · have h : DoubleWidth.bits32.literal 0.019 = 10200547 / 536870912 := by
      show binary32.roundQ 0.019 = _
      rw [binary32.roundQ_eq 0.019 (-6) (-29) 10200547 (by norm_num [abs_of_pos])
        (by norm_num [abs_of_pos]) (by norm_num [binary32])
        (roundHalfEven_of_near (by norm_num) (by norm_num))]
      norm_num
    rw [h]
    show binary32.round _ = _
    exact binary32.round_of_rep
      ⟨10200547, -29, by norm_num [binary32], by norm_num [binary32],
        by norm_num [binary32], by norm_num⟩
  · have h : DoubleWidth.bits64.literal 0.019 = 5476377146882523 / 288230376151711744 := by
      show binary64.roundQ 0.019 = _
      rw [binary64.roundQ_eq 0.019 (-6) (-58) 5476377146882523 (by norm_num [abs_of_pos])
        (by norm_num [abs_of_pos]) (by norm_num [binary64])
        (roundHalfEven_of_near (by norm_num) (by norm_num))]
      norm_num
    rw [h]
    show binary32.round _ = _
    rw [binary32.round_eq _ (-6) (-29) 10200547 (by norm_num [abs_of_pos])
      (by norm_num [abs_of_pos]) (by norm_num [binary32])
      (roundHalfEven_of_near (by norm_num) (by norm_num)) (by norm_num [binary32, abs_of_pos])]
    norm_num

theorem calc32_at_20_1000 :
    calculateAtlasSpCond DoubleWidth.bits32 (FVal.fin 20) (FVal.fin 1000) =
      FVal.fin (4525967 / 4096) := by
  have h1 : binary32.sub (FVal.fin 20) (FVal.fin 25.0) = FVal.fin (-5) := by
    show binary32.round (20 + -25.0) = _
    rw [show (20 + -25.0 : ℚ) = -5 by norm_num]
    exact binary32.round_of_rep
      ⟨-5, 0, by norm_num [binary32], by norm_num [binary32], by norm_num [binary32],
        by norm_num⟩
  have h2 : binary32.mul (FVal.fin (10200547 / 536870912)) (FVal.fin (-5)) =
      FVal.fin (-3187671 / 33554432) := by
    show binary32.round (10200547 / 536870912 * -5) = _
    rw [binary32.round_eq _ (-4) (-27) (-12750684) (by norm_num [abs_of_neg])
      (by norm_num [abs_of_neg]) (by norm_num [binary32])
      (roundHalfEven_of_near (by norm_num) (by norm_num)) (by norm_num [binary32, abs_of_neg])]
    norm_num
  have h3 : binary32.add (FVal.fin 1) (FVal.fin (-3187671 / 33554432)) =
      FVal.fin (3795845 / 4194304) := by
    show binary32.round (1 + -3187671 / 33554432) = _
    rw [binary32.round_eq _ (-1) (-24) 15183380 (by norm_num [abs_of_pos])
      (by norm_num [abs_of_pos]) (by norm_num [binary32])
      (roundHalfEven_of_tie_even (by norm_num) (by norm_num))
      (by norm_num [binary32, abs_of_pos])]
    norm_num
  have h4 : binary32.div (FVal.fin 1000) (FVal.fin (3795845 / 4194304)) =
      FVal.fin (4525967 / 4096) := by
    rw [binary32.div_fin_fin _ _ (by norm_num)]
    rw [binary32.round_eq _ 10 (-13) 9051934 (by norm_num [abs_of_pos])
      (by norm_num [abs_of_pos]) (by norm_num [binary32])
      (roundHalfEven_of_near (by norm_num) (by norm_num)) (by norm_num [binary32, abs_of_pos])]
    norm_num
  have h5 : (FVal.fin (4525967 / 4096)).toFloat = FVal.fin (4525967 / 4096) := by
    show binary32.round _ = _
    exact binary32.round_of_rep
      ⟨4525967, -12, by norm_num [binary32], by norm_num [binary32],
        by norm_num [binary32], by norm_num⟩
  unfold calculateAtlasSpCond
  rw [if_pos ⟨by simp; norm_num, by simp; norm_num⟩]
  simp only [coef_eq]
  show ((binary32.div _ (binary32.add _ (binary32.mul _ (binary32.sub _ _)))).toFloat) = _
  rw [h1, h2, h3, h4, h5]


theorem calc64_at_20_1000 :
    calculateAtlasSpCond DoubleWidth.bits64 (FVal.fin 20) (FVal.fin 1000) =
      FVal.fin (4525967 / 4096) := by
  have h1 : binary64.sub (FVal.fin 20) (FVal.fin 25.0) = FVal.fin (-5) := by
    show binary64.round (20 + -25.0) = _
    rw [show (20 + -25.0 : ℚ) = -5 by norm_num]
    exact binary64.round_of_rep
      ⟨-5, 0, by norm_num [binary64], by norm_num [binary64], by norm_num [binary64],
        by norm_num⟩
  have h2 : binary64.mul (FVal.fin (10200547 / 536870912)) (FVal.fin (-5)) =
      FVal.fin (-51002735 / 536870912) := by
    show binary64.round (10200547 / 536870912 * -5) = _
    rw [show (10200547 / 536870912 * -5 : ℚ) = -51002735 / 536870912 by norm_num]
    exact binary64.round_of_rep
      ⟨-51002735, -29, by norm_num [binary64], by norm_num [binary64],
        by norm_num [binary64], by norm_num⟩
  have h3 : binary64.add (FVal.fin 1) (FVal.fin (-51002735 / 536870912)) =
      FVal.fin (485868177 / 536870912) := by
    show binary64.round (1 + -51002735 / 536870912) = _
    rw [show (1 + -51002735 / 536870912 : ℚ) = 485868177 / 536870912 by norm_num]
    exact binary64.round_of_rep
      ⟨485868177, -29, by norm_num [binary64], by norm_num [binary64],
        by norm_num [binary64], by norm_num⟩
  have h4 : binary64.div (FVal.fin 1000) (FVal.fin (485868177 / 536870912)) =
      FVal.fin (607464985671109 / 549755813888) := by
    rw [binary64.div_fin_fin _ _ (by norm_num)]
    rw [binary64.round_eq _ 10 (-42) 4859719885368872 (by norm_num [abs_of_pos])
      (by norm_num [abs_of_pos]) (by norm_num [binary64])
      (roundHalfEven_of_near (by norm_num) (by norm_num)) (by norm_num [binary64, abs_of_pos])]
    norm_num
  have h5 : (FVal.fin (607464985671109 / 549755813888)).toFloat =
      FVal.fin (4525967 / 4096) := by
    show binary32.round _ = _
    rw [binary32.round_eq _ 10 (-13) 9051934 (by norm_num [abs_of_pos])
      (by norm_num [abs_of_pos]) (by norm_num [binary32])
      (roundHalfEven_of_near (by norm_num) (by norm_num)) (by norm_num [binary32, abs_of_pos])]
    norm_num
  unfold calculateAtlasSpCond
  rw [if_pos ⟨by simp; norm_num, by simp; norm_num⟩]
  simp only [coef_eq]
  show ((binary64.div _ (binary64.add _ (binary64.mul _ (binary64.sub _ _)))).toFloat) = _
  rw [h1, h2, h3, h4, h5]

/-- C10, as stated, fails at `T = 20`, `C = 1000`: on either width of `double`
the function returns the `float` `4525967 / 4096`, which is not
`1000 / (1 + 0.019 * (20 - 25))`. -/
theorem calculateAtlasSpCond_not_exact :
    calculateAtlasSpCond DoubleWidth.bits32 (FVal.fin 20) (FVal.fin 1000) =
        FVal.fin (4525967 / 4096) ∧
      calculateAtlasSpCond DoubleWidth.bits64 (FVal.fin 20) (FVal.fin 1000) =
        FVal.fin (4525967 / 4096) ∧
      (4525967 / 4096 : ℚ) ≠ 1000 / (1 + 0.019 * (20 - 25)) :=
  ⟨calc32_at_20_1000, calc64_at_20_1000, by norm_num⟩

/-- C10, as amended: `calculateAtlasSpCond` propagates bad inputs and otherwise
applies the linear temperature correction in floating-point arithmetic.  For
every water temperature `T` and every `float` raw conductivity `C`, on either
width of `double`: the result is `-9999` if `T = -9999` or `C = -9999`;
otherwise it is `C / (1 + 0.019f * (T - 25))` evaluated in `double` with every
operation rounded and the quotient converted to `float`, where `0.019f` is
`10200547 / 536870912`; at `T = 25` the result is `C`. -/
theorem calculateAtlasSpCond_float (d : DoubleWidth) (T C : FVal) (hC : C.IsFloat) :
    ((T = FVal.fin (-9999) ∨ C = FVal.fin (-9999)) →
        calculateAtlasSpCond d T C = FVal.fin (-9999)) ∧
      (T ≠ FVal.fin (-9999) → C ≠ FVal.fin (-9999) →
        calculateAtlasSpCond d T C =
          (d.format.div C
            (d.format.add (FVal.fin 1)
              (d.format.mul (FVal.fin (10200547 / 536870912))
                (d.format.sub T (FVal.fin 25))))).toFloat) ∧
      (T = FVal.fin 25 → calculateAtlasSpCond d T C = C) := by
  have hgood : ∀ T : FVal, T ≠ FVal.fin (-9999) → C ≠ FVal.fin (-9999) →
      calculateAtlasSpCond d T C =
        (d.format.div C
          (d.format.add (FVal.fin 1)
            (d.format.mul (FVal.fin (10200547 / 536870912))
              (d.format.sub T (FVal.fin 25))))).toFloat := by
    intro T hT hC9
    unfold calculateAtlasSpCond
    rw [if_pos ⟨hT, hC9⟩]
    simp only [coef_eq]
    norm_num
  refine ⟨?_, hgood T, ?_⟩
  · rintro (h | h) <;> simp [calculateAtlasSpCond, h]
  · rintro rfl
    by_cases hC9 : C = FVal.fin (-9999)
    · simp [calculateAtlasSpCond, hC9]
    · have h25 : FVal.fin 25 ≠ FVal.fin (-9999) := by
        intro h; injection h with h; norm_num at h
      rw [hgood _ h25 hC9]
      have h0 : d.format.round 0 = FVal.fin 0 :=
        d.format.round_of_rep (rep_of_rep32 d rep32_zero)
      have h1 : d.format.round 1 = FVal.fin 1 :=
        d.format.round_of_rep (rep_of_rep32 d rep32_one)
      have s1 : d.format.sub (FVal.fin 25) (FVal.fin 25) = FVal.fin 0 := by
        show d.format.round (25 + -25) = _
        rw [show (25 + -25 : ℚ) = 0 by norm_num, h0]
      have s2 : d.format.mul (FVal.fin (10200547 / 536870912)) (FVal.fin 0) = FVal.fin 0 := by
        show d.format.round (10200547 / 536870912 * 0) = _
        rw [mul_zero, h0]
      have s3 : d.format.add (FVal.fin 1) (FVal.fin 0) = FVal.fin 1 := by
        show d.format.round (1 + 0) = _
        rw [add_zero, h1]
      rw [s1, s2, s3]
      cases C with
      | nan => rfl
      | inf s =>
        show FVal.inf (xor s (decide ((1 : ℚ) < 0))) = FVal.inf s
        have hlt : decide ((1 : ℚ) < 0) = false := by norm_num
        rw [hlt, Bool.xor_false]
      | fin q =>
        have hq : binary32.Rep q := hC
        rw [d.format.div_fin_fin q 1 one_ne_zero, div_one,
          d.format.round_of_rep (rep_of_rep32 d hq)]
        exact binary32.round_of_rep hq

theorem calculateAtlasSpCond_float_witness :
    (FVal.fin 1000).IsFloat ∧
      calculateAtlasSpCond DoubleWidth.bits32 (FVal.fin (-9999)) (FVal.fin 1000) =
        FVal.fin (-9999) ∧
      calculateAtlasSpCond DoubleWidth.bits32 (FVal.fin 25) (FVal.fin 1000) =
        FVal.fin 1000 ∧
      calculateAtlasSpCond DoubleWidth.bits64 (FVal.fin 25) (FVal.fin 1000) =
        FVal.fin 1000 :=
  have h : (FVal.fin 1000).IsFloat :=
    ⟨1000, 0, by norm_num [binary32], by norm_num [binary32], by norm_num [binary32],
      by norm_num⟩
  ⟨h, (calculateAtlasSpCond_float DoubleWidth.bits32 (FVal.fin (-9999)) (FVal.fin 1000) h).1
      (Or.inl rfl),
    (calculateAtlasSpCond_float DoubleWidth.bits32 (FVal.fin 25) (FVal.fin 1000) h).2.2 rfl,
    (calculateAtlasSpCond_float DoubleWidth.bits64 (FVal.fin 25) (FVal.fin 1000) h).2.2 rfl⟩

end Fiona
